import Mathlib

/-!
Shallow embedding of the calibrated sensor decode pipeline of the
HardwarePython repository (`src/bmp280.py` and `src/bme280.py`).

Python floats are modelled as exact rationals (`ℚ`), Python ints as `ℕ`/`ℤ`.
Raw calibration bytes arrive as `List ℕ`; Python list indexing that can fail
with `IndexError` is modelled by pattern matching returning `Option`.
`ctypes.c_short`/`c_ushort`/`c_byte`/`c_ubyte` are modelled by wrapping
modulo the corresponding power of two.  Python's `round(x, n)` (round half
to even at `n` decimal digits) is modelled by `roundTo`.  Reading the
`t_fine` attribute while it is `None` would raise a `TypeError` in Python;
the embedding returns `none` in that case, so an operation that can never
hit that path is proved by showing it always returns `some`.
-/

namespace HardwarePython

/-- Model of `ctypes.c_ushort(v).value`: wrap modulo 2^16, unsigned. -/
def c_ushort (v : ℤ) : ℤ := v % 65536

/-- Model of `ctypes.c_short(v).value`: wrap modulo 2^16, two's-complement signed. -/
def c_short (v : ℤ) : ℤ :=
  if v % 65536 < 32768 then v % 65536 else v % 65536 - 65536

/-- Model of `ctypes.c_ubyte(v).value`: wrap modulo 2^8, unsigned. -/
def c_ubyte (v : ℤ) : ℤ := v % 256

/-- Model of `ctypes.c_byte(v).value`: wrap modulo 2^8, two's-complement signed. -/
def c_byte (v : ℤ) : ℤ :=
  if v % 256 < 128 then v % 256 else v % 256 - 256

/-- Round a rational to the nearest integer, ties to even — the rounding mode
of Python's built-in `round`. -/
def roundHalfEven (x : ℚ) : ℤ :=
  let f : ℤ := ⌊x⌋
  let r : ℚ := x - f
  if r < 1/2 then f
  else if 1/2 < r then f + 1
  else if f % 2 = 0 then f else f + 1

/-- Model of Python's `round(x, n)`: round half to even at `n` decimal digits. -/
def roundTo (n : ℕ) (x : ℚ) : ℚ :=
  (roundHalfEven (x * 10 ^ n) : ℚ) / 10 ^ n

/-- Calibration coefficients decoded by `BMP280.calibrate`
(`src/bmp280.py`, lines 67-78), as Python floats. -/
structure BMP280Calib where
  dig_T1 : ℚ
  dig_T2 : ℚ
  dig_T3 : ℚ
  dig_P1 : ℚ
  dig_P2 : ℚ
  dig_P3 : ℚ
  dig_P4 : ℚ
  dig_P5 : ℚ
  dig_P6 : ℚ
  dig_P7 : ℚ
  dig_P8 : ℚ
  dig_P9 : ℚ
  deriving DecidableEq

/-- Humidity calibration coefficients decoded by `BME280.calibrate`
(`src/bme280.py`, lines 32-39). -/
structure BME280HumCalib where
  dig_H1 : ℚ
  dig_H2 : ℚ
  dig_H3 : ℚ
  dig_H4 : ℚ
  dig_H5 : ℚ
  dig_H6 : ℚ
  deriving DecidableEq

/-- Decode of the 24 calibration bytes, `BMP280.calibrate`
(`src/bmp280.py`, lines 63-78).  The Python code indexes `data[0]`..`data[23]`
of the block returned by the bus; a block with fewer than 24 bytes raises
`IndexError` (modelled as `none`), extra bytes are ignored. -/
def calibrate (data : List ℕ) : Option BMP280Calib :=
  match data with
  | d0 :: d1 :: d2 :: d3 :: d4 :: d5 :: d6 :: d7 :: d8 :: d9 :: d10 :: d11 ::
    d12 :: d13 :: d14 :: d15 :: d16 :: d17 :: d18 :: d19 :: d20 :: d21 ::
    d22 :: d23 :: _ =>
    some {
      dig_T1 := (c_ushort (((d1 <<< 8) + d0 : ℕ) : ℤ) : ℚ)
      dig_T2 := (c_short (((d3 <<< 8) + d2 : ℕ) : ℤ) : ℚ)
      dig_T3 := (c_short (((d5 <<< 8) + d4 : ℕ) : ℤ) : ℚ)
      dig_P1 := (c_ushort (((d7 <<< 8) + d6 : ℕ) : ℤ) : ℚ)
      dig_P2 := (c_short (((d9 <<< 8) + d8 : ℕ) : ℤ) : ℚ)
      dig_P3 := (c_short (((d11 <<< 8) + d10 : ℕ) : ℤ) : ℚ)
      dig_P4 := (c_short (((d13 <<< 8) + d12 : ℕ) : ℤ) : ℚ)
      dig_P5 := (c_short (((d15 <<< 8) + d14 : ℕ) : ℤ) : ℚ)
      dig_P6 := (c_short (((d17 <<< 8) + d16 : ℕ) : ℤ) : ℚ)
      dig_P7 := (c_short (((d19 <<< 8) + d18 : ℕ) : ℤ) : ℚ)
      dig_P8 := (c_short (((d21 <<< 8) + d20 : ℕ) : ℤ) : ℚ)
      dig_P9 := (c_short (((d23 <<< 8) + d22 : ℕ) : ℤ) : ℚ) }
  | _ => none

/-- Decode of the humidity calibration bytes, `BME280.calibrate`
(`src/bme280.py`, lines 24-39): first the inherited 24-byte block, then the
1-byte block at `CALIBRATION_H1` and the 7-byte block at `CALIBRATION_HX`. -/
def calibrateBME (data dataH1 dataHX : List ℕ) :
    Option (BMP280Calib × BME280HumCalib) :=
  match calibrate data with
  | none => none
  | some base =>
    match dataH1, dataHX with
    | h0 :: _, x0 :: x1 :: x2 :: x3 :: x4 :: x5 :: x6 :: _ =>
      some (base, {
        dig_H1 := (c_ubyte (h0 : ℤ) : ℚ)
        dig_H2 := (c_short (((x1 <<< 8) + x0 : ℕ) : ℤ) : ℚ)
        dig_H3 := (c_ubyte (x2 : ℤ) : ℚ)
        dig_H4 := (c_short (((x3 <<< 4) + (x4 &&& 0xf) : ℕ) : ℤ) : ℚ)
        dig_H5 := (c_short (((x5 <<< 4) + ((x4 &&& 0xf0) >>> 4) : ℕ) : ℤ) : ℚ)
        dig_H6 := (c_byte (x6 : ℤ) : ℚ) })
    | _, _ => none

/-- Mutable state of a `BMP280` object that the compensation operations touch:
the loaded calibration and the `t_fine` attribute (`None` until the first
`temperature()` call). -/
structure BMP280State where
  calib : BMP280Calib
  t_fine : Option ℚ
  deriving DecidableEq

/-- Mutable state of a `BME280` object: the inherited `BMP280` calibration,
the humidity calibration, and the shared `t_fine` attribute. -/
structure BME280State where
  calib : BMP280Calib
  calibH : BME280HumCalib
  t_fine : Option ℚ
  deriving DecidableEq

/-- `BMP280.temperature` (`src/bmp280.py`, lines 223-231): returns the rounded
Celsius value and the updated object state (`self.t_fine` overwritten).
`adc_T` is `float(self.raw_temperature())`, supplied here as a parameter. -/
def temperature (s : BMP280State) (adc_T : ℚ) : ℚ × BMP280State :=
  let var1 := (adc_T / 16384 - s.calib.dig_T1 / 1024) * s.calib.dig_T2
  let var2 := ((adc_T / 131072 - s.calib.dig_T1 / 8192) *
      (adc_T / 131072 - s.calib.dig_T1 / 8192)) * s.calib.dig_T3
  let T := (var1 + var2) / 5120
  (roundTo 2 T, { s with t_fine := some (var1 + var2) })

/-- `BMP280.temperature` as inherited and executed on a `BME280` object
(same code, `src/bmp280.py`, lines 223-231). -/
def temperatureB (s : BME280State) (adc_T : ℚ) : ℚ × BME280State :=
  let var1 := (adc_T / 16384 - s.calib.dig_T1 / 1024) * s.calib.dig_T2
  let var2 := ((adc_T / 131072 - s.calib.dig_T1 / 8192) *
      (adc_T / 131072 - s.calib.dig_T1 / 8192)) * s.calib.dig_T3
  let T := (var1 + var2) / 5120
  (roundTo 2 T, { s with t_fine := some (var1 + var2) })

/-- `BMP280.pressure` (`src/bmp280.py`, lines 233-252).  `adc_T` is the raw
temperature sample consumed if `temperature()` is (re)computed, `adc_P` is
`float(self.raw_pressure())`.  Reading `self.t_fine` while it is `None`
(a `TypeError` in Python) is modelled by the `none` result. -/
def pressure (s : BMP280State) (adc_T adc_P : ℚ)
    (update_temperature : Bool) : Option (ℚ × BMP280State) :=
  let s1 := if s.t_fine.isNone || update_temperature then
      (temperature s adc_T).2 else s
  match s1.t_fine with
  | none => none
  | some t_fine =>
    let var1 := (t_fine / 2) - 64000
    let var2 := var1 * var1 * s1.calib.dig_P6 / 32768
    let var2 := var2 + var1 * s1.calib.dig_P5 * 2
    let var2 := (var2 / 4) + (s1.calib.dig_P4 * 65536)
    let var1 := (s1.calib.dig_P3 * var1 * var1 / 524288 +
        s1.calib.dig_P2 * var1) / 524288
    let var1 := (1 + var1 / 32768) * s1.calib.dig_P1
    if var1 = 0 then
      some (0, s1)  -- Avoid exception caused by division by zero
    else
      let p := 1048576 - adc_P
      let p := (p - (var2 / 4096)) * 6250 / var1
      let var1 := s1.calib.dig_P9 * p * p / 2147483648
      let var2 := p * s1.calib.dig_P8 / 32768
      let p := p + (var1 + var2 + s1.calib.dig_P7) / 16
      some (roundTo 1 p, s1)

/-- `BME280.humidity` (`src/bme280.py`, lines 117-137).  `adc_T` is the raw
temperature sample consumed if `temperature()` is (re)computed, `adc_H` is
`float(self.raw_humidity())`. -/
def humidity (s : BME280State) (adc_T adc_H : ℚ)
    (update_temperature : Bool) : Option (ℚ × BME280State) :=
  let s1 := if s.t_fine.isNone || update_temperature then
      (temperatureB s adc_T).2 else s
  match s1.t_fine with
  | none => none
  | some t_fine =>
    let var_H := t_fine - 76800
    let var_H :=
      (adc_H - (s1.calibH.dig_H4 * 64 + s1.calibH.dig_H5 / 16384 * var_H)) *
      (s1.calibH.dig_H2 / 65536 * (
        1 + s1.calibH.dig_H6 / 67108864 * var_H *
        (1 + s1.calibH.dig_H3 / 67108864 * var_H)))
    let var_H := var_H * (1 - s1.calibH.dig_H1 * var_H / 524288)
    let var_H := if var_H > 100 then (100 : ℚ)
      else if var_H < 0 then 0 else var_H
    some (roundTo 3 var_H, s1)

/-! Spec-side definitions: formulas transcribed from the specification's own
words, to be compared with the embedded code. -/

/-- Spec formula `var1 = (raw/16384 - T1/1024) * T2` (spec §4.2). -/
def specTempVar1 (T1 T2 raw : ℚ) : ℚ := (raw / 16384 - T1 / 1024) * T2

/-- Spec formula `var2 = ((raw/131072 - T1/8192)^2) * T3` (spec §4.2). -/
def specTempVar2 (T1 T3 raw : ℚ) : ℚ := ((raw / 131072 - T1 / 8192) ^ 2) * T3

/-- Spec formula `fine_temperature = var1 + var2` (spec §4.2). -/
def specFine (c : BMP280Calib) (raw : ℚ) : ℚ :=
  specTempVar1 c.dig_T1 c.dig_T2 raw + specTempVar2 c.dig_T1 c.dig_T3 raw

/-- The `dig_P1`-normalized denominator `(1.0 + var1/32768.0) * P1` of the
pressure compensation, as a function of the fine temperature. -/
def pressureVar1Final (c : BMP280Calib) (tf : ℚ) : ℚ :=
  let var1 := (tf / 2) - 64000
  let var1 := (c.dig_P3 * var1 * var1 / 524288 + c.dig_P2 * var1) / 524288
  (1 + var1 / 32768) * c.dig_P1

/-- The compensated pressure in Pascals (before rounding), as a function of
the fine temperature and the raw pressure sample. -/
def pressureCompensated (c : BMP280Calib) (tf adc_P : ℚ) : ℚ :=
  let var1 := (tf / 2) - 64000
  let var2 := var1 * var1 * c.dig_P6 / 32768
  let var2 := var2 + var1 * c.dig_P5 * 2
  let var2 := (var2 / 4) + (c.dig_P4 * 65536)
  let p := 1048576 - adc_P
  let p := (p - (var2 / 4096)) * 6250 / pressureVar1Final c tf
  p + (c.dig_P9 * p * p / 2147483648 + p * c.dig_P8 / 32768 + c.dig_P7) / 16

/-- The compensated (unclamped) relative humidity, as a function of the fine
temperature and the raw humidity sample. -/
def humidityCompensated (h : BME280HumCalib) (tf adc_H : ℚ) : ℚ :=
  let var_H := tf - 76800
  let var_H :=
    (adc_H - (h.dig_H4 * 64 + h.dig_H5 / 16384 * var_H)) *
    (h.dig_H2 / 65536 * (
      1 + h.dig_H6 / 67108864 * var_H *
      (1 + h.dig_H3 / 67108864 * var_H)))
  var_H * (1 - h.dig_H1 * var_H / 524288)

/-- The clamp of the humidity result to the closed range `[0, 100]`. -/
def clampHum (x : ℚ) : ℚ := if x > 100 then (100 : ℚ) else if x < 0 then 0 else x

/-- The fine temperature actually consumed by `pressure`/`humidity`:
freshly recomputed when `t_fine` is unset or the refresh flag is on,
otherwise the stored value. -/
def fineAfter (tf : Option ℚ) (c : BMP280Calib) (adc_T : ℚ) (b : Bool) : ℚ :=
  if tf.isNone || b then specFine c adc_T else tf.getD 0

/-- Little-endian unsigned 16-bit byte encoding (two's complement for
negative inputs): the inverse direction of the calibration word decode. -/
def bytes16 (v : ℤ) : List ℕ := [(v % 65536).toNat % 256, (v % 65536).toNat / 256]

/-- Byte encoding of a full synthetic 24-byte calibration block from twelve
coefficient values. -/
def encodeCalib24 (t1 t2 t3 p1 p2 p3 p4 p5 p6 p7 p8 p9 : ℤ) : List ℕ :=
  bytes16 t1 ++ bytes16 t2 ++ bytes16 t3 ++ bytes16 p1 ++ bytes16 p2 ++
  bytes16 p3 ++ bytes16 p4 ++ bytes16 p5 ++ bytes16 p6 ++ bytes16 p7 ++
  bytes16 p8 ++ bytes16 p9

/-! Arithmetic lemmas about the rounding helpers. -/

/-- Evaluation rule for `roundHalfEven` when the argument lies in the lower
half of an integer step. -/
theorem roundHalfEven_eq_of_lt_half (x : ℚ) (f : ℤ) (h1 : (f : ℚ) ≤ x)
    (h2 : x < (f : ℚ) + 1/2) : roundHalfEven x = f := by
  have hf : ⌊x⌋ = f := Int.floor_eq_iff.mpr ⟨h1, by linarith⟩
  simp only [roundHalfEven, hf]
  rw [if_pos (by linarith : x - (f : ℚ) < 1/2)]

/-- Evaluation rule for `roundHalfEven` when the argument lies in the upper
half of an integer step. -/
theorem roundHalfEven_eq_of_half_lt (x : ℚ) (f : ℤ) (h1 : (f : ℚ) + 1/2 < x)
    (h2 : x < (f : ℚ) + 1) : roundHalfEven x = f + 1 := by
  have hf : ⌊x⌋ = f := Int.floor_eq_iff.mpr ⟨by linarith, by linarith⟩
  simp only [roundHalfEven, hf]
  rw [if_neg (by linarith : ¬ x - (f : ℚ) < 1/2),
    if_pos (by linarith : 1/2 < x - (f : ℚ))]

/-- `roundHalfEven` never rounds above an integer bound. -/
theorem roundHalfEven_le_int (x : ℚ) (n : ℤ) (h : x ≤ (n : ℚ)) :
    roundHalfEven x ≤ n := by
  have hfl : ⌊x⌋ ≤ n := by
    have := Int.floor_le_floor h
    simpa using this
  have hx : (⌊x⌋ : ℚ) ≤ x := Int.floor_le x
  simp only [roundHalfEven]
  split_ifs with h1 h2 h3
  · exact hfl
  · have hq : ((⌊x⌋ : ℤ) : ℚ) < (n : ℚ) := by linarith
    have : ⌊x⌋ < n := by exact_mod_cast hq
    omega
  · exact hfl
  · have hq : ((⌊x⌋ : ℤ) : ℚ) < (n : ℚ) := by
      push_neg at h1 h2
      linarith
    have : ⌊x⌋ < n := by exact_mod_cast hq
    omega

/-- `roundHalfEven` never rounds below an integer bound. -/
theorem roundHalfEven_ge_int (x : ℚ) (n : ℤ) (h : (n : ℚ) ≤ x) :
    n ≤ roundHalfEven x := by
  have hfl : n ≤ ⌊x⌋ := Int.le_floor.mpr h
  simp only [roundHalfEven]
  split_ifs <;> omega

/-- Evaluation rule for `roundTo` in the round-down case. -/
theorem roundTo_eq_low (n : ℕ) (x : ℚ) (k : ℤ) (h1 : (k : ℚ) ≤ x * 10 ^ n)
    (h2 : x * 10 ^ n < (k : ℚ) + 1/2) : roundTo n x = (k : ℚ) / 10 ^ n := by
  rw [roundTo, roundHalfEven_eq_of_lt_half _ k h1 h2]

/-- Evaluation rule for `roundTo` in the round-up case. -/
theorem roundTo_eq_high (n : ℕ) (x : ℚ) (k : ℤ) (h1 : (k : ℚ) + 1/2 < x * 10 ^ n)
    (h2 : x * 10 ^ n < (k : ℚ) + 1) : roundTo n x = ((k : ℚ) + 1) / 10 ^ n := by
  rw [roundTo, roundHalfEven_eq_of_half_lt _ k h1 h2]
  push_cast
  ring

/-- `roundTo` keeps values below an integer bound below that bound. -/
theorem roundTo_le_int (n : ℕ) (x : ℚ) (B : ℤ) (h : x ≤ (B : ℚ)) :
    roundTo n x ≤ (B : ℚ) := by
  have h10 : (0 : ℚ) < 10 ^ n := by positivity
  have hx : x * 10 ^ n ≤ ((B * 10 ^ n : ℤ) : ℚ) := by
    push_cast
    nlinarith
  have hle := roundHalfEven_le_int (x * 10 ^ n) (B * 10 ^ n) hx
  rw [roundTo, div_le_iff₀ h10]
  calc (roundHalfEven (x * 10 ^ n) : ℚ) ≤ ((B * 10 ^ n : ℤ) : ℚ) := by
        exact_mod_cast hle
    _ = (B : ℚ) * 10 ^ n := by push_cast; ring

/-- `roundTo` keeps values above an integer bound above that bound. -/
theorem roundTo_ge_int (n : ℕ) (x : ℚ) (B : ℤ) (h : (B : ℚ) ≤ x) :
    (B : ℚ) ≤ roundTo n x := by
  have h10 : (0 : ℚ) < 10 ^ n := by positivity
  have hx : ((B * 10 ^ n : ℤ) : ℚ) ≤ x * 10 ^ n := by
    push_cast
    nlinarith
  have hge := roundHalfEven_ge_int (x * 10 ^ n) (B * 10 ^ n) hx
  rw [roundTo, le_div_iff₀ h10]
  calc (B : ℚ) * 10 ^ n = ((B * 10 ^ n : ℤ) : ℚ) := by push_cast; ring
    _ ≤ (roundHalfEven (x * 10 ^ n) : ℚ) := by exact_mod_cast hge

/-- The spec-side fine temperature agrees with the code-side expression
(the spec squares, the code multiplies the factor by itself). -/
theorem specFine_eq (c : BMP280Calib) (r : ℚ) : specFine c r =
    (r / 16384 - c.dig_T1 / 1024) * c.dig_T2 +
    (r / 131072 - c.dig_T1 / 8192) * (r / 131072 - c.dig_T1 / 8192) *
      c.dig_T3 := by
  simp only [specFine, specTempVar1, specTempVar2]
  ring

/-- Master equation for `pressure`: it always returns `some`, the state it
returns carries `t_fine = fineAfter …`, and the value is `0` exactly on the
degenerate denominator, otherwise the compensated pressure rounded to one
decimal. -/
theorem pressure_eq (s : BMP280State) (rT rP : ℚ) (b : Bool) :
    pressure s rT rP b =
      some (if pressureVar1Final s.calib (fineAfter s.t_fine s.calib rT b) = 0
            then 0
            else roundTo 1
              (pressureCompensated s.calib (fineAfter s.t_fine s.calib rT b) rP),
        { s with t_fine := some (fineAfter s.t_fine s.calib rT b) }) := by
  obtain ⟨calib, tf⟩ := s
  cases tf <;> cases b <;>
    simp [pressure, temperature, fineAfter, pressureVar1Final,
      pressureCompensated, specFine_eq] <;>
    split <;> rename_i h <;> simp [h]

/-- Master equation for `humidity`: it always returns `some`, the state it
returns carries `t_fine = fineAfter …`, and the value is the compensated
humidity clamped to `[0, 100]` and rounded to three decimals. -/
theorem humidity_eq (s : BME280State) (rT rH : ℚ) (b : Bool) :
    humidity s rT rH b =
      some (roundTo 3
          (clampHum (humidityCompensated s.calibH
            (fineAfter s.t_fine s.calib rT b) rH)),
        { s with t_fine := some (fineAfter s.t_fine s.calib rT b) }) := by
  obtain ⟨calib, calibH, tf⟩ := s
  cases tf <;> cases b <;>
    simp only [humidity, temperatureB, Option.isNone_none, Option.isNone_some,
      Bool.true_or, Bool.false_or, Bool.or_true, Bool.or_false,
      Bool.false_eq_true, if_true, if_false, ite_true, ite_false] <;>
    simp [fineAfter, humidityCompensated, clampHum, specFine_eq]

/-! Claim C1: temperature compensation formula and the datasheet worked
example. -/

/-- The temperature calibration of the vendor datasheet worked example:
`T1 = 27504`, `T2 = 26435`, `T3 = -1000` (pressure coefficients unused). -/
def exampleCalib : BMP280Calib :=
  { dig_T1 := 27504, dig_T2 := 26435, dig_T3 := -1000
    dig_P1 := 0, dig_P2 := 0, dig_P3 := 0, dig_P4 := 0, dig_P5 := 0
    dig_P6 := 0, dig_P7 := 0, dig_P8 := 0, dig_P9 := 0 }

/-- C1 counterexample: at the worked example (raw=519888, T1=27504, T2=26435,
T3=-1000) the stored `fine_temperature` is exactly `1077284224155/8388608 ≈
128422.287`, which is NOT approximately `128422.63` (it differs by more than
`0.3`, far beyond the two-decimal precision the claim states). -/
theorem C1_counterexample :
    (temperature ⟨exampleCalib, none⟩ 519888).2.t_fine =
      some (1077284224155 / 8388608) ∧
    ¬ |(1077284224155 : ℚ) / 8388608 - 12842263 / 100| ≤ 1 / 200 := by
  constructor
  · simp only [temperature, exampleCalib]
    norm_num
  · rw [not_le, abs_of_neg (by norm_num : (1077284224155 : ℚ) / 8388608 - 12842263 / 100 < 0)]
    norm_num

/-- C1 (amended): for every state and non-negative raw sample, `temperature`
returns `(var1 + var2) / 5120` rounded to 2 decimals with
`var1 = (raw/16384 - T1/1024)*T2` and `var2 = ((raw/131072 - T1/8192)^2)*T3`,
and stores `fine_temperature = var1 + var2`; at the worked example the result
is `25.08` and the stored fine temperature is approximately `128422.29`
(not `128422.63`). -/
theorem C1_temperature_formula (s : BMP280State) (raw : ℚ) (h : 0 ≤ raw) :
    temperature s raw =
      (roundTo 2 (specFine s.calib raw / 5120),
        { s with t_fine := some (specFine s.calib raw) }) ∧
    (temperature ⟨exampleCalib, none⟩ 519888).1 = 2508 / 100 ∧
    (temperature ⟨exampleCalib, none⟩ 519888).2.t_fine =
      some (1077284224155 / 8388608) ∧
    |(1077284224155 : ℚ) / 8388608 - 12842229 / 100| ≤ 1 / 200 := by
  have hfine : ∀ (c : BMP280Calib) (r : ℚ), specFine c r =
      (r / 16384 - c.dig_T1 / 1024) * c.dig_T2 +
      (r / 131072 - c.dig_T1 / 8192) * (r / 131072 - c.dig_T1 / 8192) *
        c.dig_T3 := by
    intro c r
    simp only [specFine, specTempVar1, specTempVar2]
    ring
  refine ⟨?_, ?_, ?_, ?_⟩
  · rw [hfine]
    simp only [temperature]
  · rw [show (temperature ⟨exampleCalib, none⟩ 519888).1 =
        roundTo 2 (1077284224155 / 42949672960) from by
      simp only [temperature, exampleCalib]
      norm_num]
    rw [roundTo_eq_low 2 _ 2508 (by norm_num) (by norm_num)]
    norm_num
  · simp only [temperature, exampleCalib]
    norm_num
  · refine abs_sub_le_iff.mpr ⟨by norm_num, by norm_num⟩

/-- C1 witness: the amended theorem applied at the worked example input. -/
theorem C1_temperature_formula_witness :
    temperature ⟨exampleCalib, none⟩ 519888 =
      (roundTo 2 (specFine exampleCalib 519888 / 5120),
        { calib := exampleCalib, t_fine := some (specFine exampleCalib 519888) }) ∧
    (temperature ⟨exampleCalib, none⟩ 519888).1 = 2508 / 100 ∧
    (temperature ⟨exampleCalib, none⟩ 519888).2.t_fine =
      some (1077284224155 / 8388608) ∧
    |(1077284224155 : ℚ) / 8388608 - 12842229 / 100| ≤ 1 / 200 :=
  C1_temperature_formula ⟨exampleCalib, none⟩ 519888 (by norm_num)

/-! Claims C2, C3, C6, C8, C9, C10: behaviour of the compensation
operations. -/

/-- An all-zero temperature/pressure calibration (degenerate `dig_P1 = 0`). -/
def zeroCalib : BMP280Calib :=
  { dig_T1 := 0, dig_T2 := 0, dig_T3 := 0
    dig_P1 := 0, dig_P2 := 0, dig_P3 := 0, dig_P4 := 0, dig_P5 := 0
    dig_P6 := 0, dig_P7 := 0, dig_P8 := 0, dig_P9 := 0 }

/-- An all-zero humidity calibration (`H1..H6 = 0`). -/
def zeroHumCalib : BME280HumCalib :=
  { dig_H1 := 0, dig_H2 := 0, dig_H3 := 0, dig_H4 := 0, dig_H5 := 0
    dig_H6 := 0 }

/-- C3: `pressure` never raises: for every state, raw samples and refresh
flag it returns a value (`some`); the value is exactly `0.0` when the
`dig_P1`-normalized denominator `(1 + var1/32768) * P1` is zero, and
otherwise the compensated pressure in Pascals rounded to 1 decimal place. -/
theorem C3_pressure_never_raises (s : BMP280State) (rT rP : ℚ) (b : Bool) :
    pressure s rT rP b =
      some (if pressureVar1Final s.calib (fineAfter s.t_fine s.calib rT b) = 0
            then 0
            else roundTo 1
              (pressureCompensated s.calib (fineAfter s.t_fine s.calib rT b) rP),
        { s with t_fine := some (fineAfter s.t_fine s.calib rT b) }) :=
  pressure_eq s rT rP b

/-- C2: the humidity result is always within `[0, 100]` (the compensated
value is clamped before rounding), and with `raw = 0` and all-zero
`H1..H6` the result is exactly `0.0`. -/
theorem C2_humidity_clamped (s : BME280State) (rT rH : ℚ) (b : Bool)
    (r : ℚ) (s' : BME280State) (h : humidity s rT rH b = some (r, s')) :
    (0 ≤ r ∧ r ≤ 100) ∧
    (humidity ⟨s.calib, zeroHumCalib, some rT⟩ rT 0 b).map Prod.fst = some 0 := by
  constructor
  · rw [humidity_eq] at h
    simp only [Option.some.injEq, Prod.mk.injEq] at h
    have hr : r = roundTo 3 (clampHum (humidityCompensated s.calibH
        (fineAfter s.t_fine s.calib rT b) rH)) := h.1.symm
    have hc : 0 ≤ clampHum (humidityCompensated s.calibH
        (fineAfter s.t_fine s.calib rT b) rH) ∧
        clampHum (humidityCompensated s.calibH
          (fineAfter s.t_fine s.calib rT b) rH) ≤ 100 := by
      unfold clampHum
      split_ifs <;> constructor <;> linarith
    subst hr
    constructor
    · have := roundTo_ge_int 3 _ 0 (by exact_mod_cast hc.1)
      exact_mod_cast this
    · have := roundTo_le_int 3 _ 100 (by exact_mod_cast hc.2)
      exact_mod_cast this
  · rw [humidity_eq]
    have hz : ∀ tf : ℚ, humidityCompensated zeroHumCalib tf 0 = 0 := by
      intro tf
      simp [humidityCompensated, zeroHumCalib]
    have hcl : clampHum 0 = 0 := by norm_num [clampHum]
    have hrt : roundTo 3 (0 : ℚ) = 0 := by
      rw [show (0 : ℚ) = ((0 : ℤ) : ℚ) from by norm_num,
        roundTo_eq_low 3 _ 0 (by norm_num) (by norm_num)]
      norm_num
    simp [hz, hcl, hrt]

/-- C2 witness: the clamp bounds and the all-zero example at a concrete
call. -/
theorem C2_humidity_clamped_witness :
    ((0 : ℚ) ≤ 0 ∧ (0 : ℚ) ≤ 100) ∧
    (humidity ⟨zeroCalib, zeroHumCalib, some 0⟩ 0 0 true).map Prod.fst =
      some 0 := by
  have hrt : roundTo 3 (0 : ℚ) = 0 := by
    norm_num [roundTo, roundHalfEven]
  have h : humidity ⟨zeroCalib, zeroHumCalib, some 0⟩ 0 0 true =
      some (0, ⟨zeroCalib, zeroHumCalib, some 0⟩) := by
    rw [humidity_eq]
    have hfa : fineAfter (some 0 : Option ℚ) zeroCalib 0 true = 0 := by
      norm_num [fineAfter, specFine, specTempVar1, specTempVar2, zeroCalib]
    rw [hfa]
    have hhc : humidityCompensated zeroHumCalib 0 0 = 0 := by
      norm_num [humidityCompensated, zeroHumCalib]
    rw [hhc]
    have hcl : clampHum 0 = 0 := by norm_num [clampHum]
    rw [hcl, hrt]
  exact C2_humidity_clamped ⟨zeroCalib, zeroHumCalib, some 0⟩ 0 0 true 0 _ h

/-- C6: `pressure` and `humidity` recompute the temperature exactly when
`t_fine` is unset or the refresh flag is true (the recomputed fine
temperature lands in the returned state); they never read an unset `t_fine`
(they always return `some`); and with the flag off and `t_fine` set they
reuse the stored value and leave the state unchanged. -/
theorem C6_fine_refresh (s : BMP280State) (sb : BME280State)
    (rT rP rH f fb : ℚ) (b : Bool) :
    (pressure s rT rP b).isSome = true ∧
    (humidity sb rT rH b).isSome = true ∧
    ((s.t_fine = none ∨ b = true) →
      (pressure s rT rP b).map Prod.snd =
        some { s with t_fine := some (specFine s.calib rT) }) ∧
    ((sb.t_fine = none ∨ b = true) →
      (humidity sb rT rH b).map Prod.snd =
        some { sb with t_fine := some (specFine sb.calib rT) }) ∧
    (s.t_fine = some f →
      pressure s rT rP false =
        some (if pressureVar1Final s.calib f = 0 then 0
              else roundTo 1 (pressureCompensated s.calib f rP), s)) ∧
    (sb.t_fine = some fb →
      humidity sb rT rH false =
        some (roundTo 3 (clampHum (humidityCompensated sb.calibH fb rH)), sb)) := by
  refine ⟨?_, ?_, ?_, ?_, ?_, ?_⟩
  · rw [pressure_eq]
    rfl
  · rw [humidity_eq]
    rfl
  · intro hg
    have hfa : fineAfter s.t_fine s.calib rT b = specFine s.calib rT := by
      rcases hg with hg | hg <;> simp [fineAfter, hg]
    rw [pressure_eq, hfa]
    rfl
  · intro hg
    have hfa : fineAfter sb.t_fine sb.calib rT b = specFine sb.calib rT := by
      rcases hg with hg | hg <;> simp [fineAfter, hg]
    rw [humidity_eq, hfa]
    rfl
  · intro hf
    have hfa : fineAfter s.t_fine s.calib rT false = f := by
      simp [fineAfter, hf]
    rw [pressure_eq, hfa]
    have hs : { s with t_fine := some f } = s := by
      obtain ⟨calib, tf⟩ := s
      simp only at hf
      rw [hf]
    rw [hs]
  · intro hf
    have hfa : fineAfter sb.t_fine sb.calib rT false = fb := by
      simp [fineAfter, hf]
    rw [humidity_eq, hfa]
    have hs : { sb with t_fine := some fb } = sb := by
      obtain ⟨calib, calibH, tf⟩ := sb
      simp only at hf
      rw [hf]
    rw [hs]

/-- C6 witness: the refresh-and-reuse behaviour at concrete states. -/
theorem C6_fine_refresh_witness :
    (pressure ⟨zeroCalib, none⟩ 0 0 false).map Prod.snd =
      some { calib := zeroCalib, t_fine := some (specFine zeroCalib 0) } ∧
    pressure ⟨zeroCalib, some 5⟩ 0 0 false =
      some (if pressureVar1Final zeroCalib 5 = 0 then 0
            else roundTo 1 (pressureCompensated zeroCalib 5 0),
        ⟨zeroCalib, some 5⟩) ∧
    humidity ⟨zeroCalib, zeroHumCalib, some 7⟩ 0 0 false =
      some (roundTo 3 (clampHum (humidityCompensated zeroHumCalib 7 0)),
        ⟨zeroCalib, zeroHumCalib, some 7⟩) :=
  ⟨(C6_fine_refresh ⟨zeroCalib, none⟩ ⟨zeroCalib, zeroHumCalib, none⟩
      0 0 0 5 7 false).2.2.1 (Or.inl rfl),
   (C6_fine_refresh ⟨zeroCalib, some 5⟩ ⟨zeroCalib, zeroHumCalib, none⟩
      0 0 0 5 7 false).2.2.2.2.1 rfl,
   (C6_fine_refresh ⟨zeroCalib, some 5⟩ ⟨zeroCalib, zeroHumCalib, some 7⟩
      0 0 0 5 7 false).2.2.2.2.2 rfl⟩

/-- C8: the compensation operations never change the loaded calibration
coefficients; the only state they mutate is `t_fine`, and `temperature`
unconditionally overwrites `t_fine` on every call. -/
theorem C8_frame (s : BMP280State) (sb : BME280State) (rT rP rH : ℚ)
    (b : Bool) :
    (temperature s rT).2.calib = s.calib ∧
    (temperature s rT).2.t_fine = some (specFine s.calib rT) ∧
    (temperatureB sb rT).2.calib = sb.calib ∧
    (temperatureB sb rT).2.calibH = sb.calibH ∧
    (temperatureB sb rT).2.t_fine = some (specFine sb.calib rT) ∧
    (∀ r s', pressure s rT rP b = some (r, s') → s'.calib = s.calib) ∧
    (∀ r s', humidity sb rT rH b = some (r, s') →
      s'.calib = sb.calib ∧ s'.calibH = sb.calibH) := by
  refine ⟨rfl, by simp [temperature, specFine_eq], rfl, rfl,
    by simp [temperatureB, specFine_eq], ?_, ?_⟩
  · intro r s' h
    rw [pressure_eq] at h
    simp only [Option.some.injEq, Prod.mk.injEq] at h
    rw [← h.2]
  · intro r s' h
    rw [humidity_eq] at h
    simp only [Option.some.injEq, Prod.mk.injEq] at h
    rw [← h.2]
    exact ⟨rfl, rfl⟩

/-- C8 witness: frame facts at a concrete state and inputs. -/
theorem C8_frame_witness :
    (temperature ⟨zeroCalib, none⟩ 3).2.calib = zeroCalib ∧
    (⟨zeroCalib, some (specFine zeroCalib 3)⟩ : BMP280State).calib = zeroCalib ∧
    (⟨zeroCalib, zeroHumCalib, some (specFine zeroCalib 3)⟩ : BME280State).calib
      = zeroCalib ∧
    (⟨zeroCalib, zeroHumCalib, some (specFine zeroCalib 3)⟩ : BME280State).calibH
      = zeroHumCalib := by
  have hp := C8_frame ⟨zeroCalib, none⟩ ⟨zeroCalib, zeroHumCalib, none⟩ 3 0 0 true
  have hpress : pressure ⟨zeroCalib, none⟩ 3 0 true =
      some (0, ⟨zeroCalib, some (specFine zeroCalib 3)⟩) := by
    rw [pressure_eq]
    have hfa : fineAfter (none : Option ℚ) zeroCalib 3 true =
        specFine zeroCalib 3 := by simp [fineAfter]
    rw [hfa, if_pos (by simp [pressureVar1Final, zeroCalib])]
  have hhum : humidity ⟨zeroCalib, zeroHumCalib, none⟩ 3 0 true =
      some (roundTo 3 (clampHum
          (humidityCompensated zeroHumCalib (specFine zeroCalib 3) 0)),
        ⟨zeroCalib, zeroHumCalib, some (specFine zeroCalib 3)⟩) := by
    rw [humidity_eq]
    have hfa : fineAfter (none : Option ℚ) zeroCalib 3 true =
        specFine zeroCalib 3 := by simp [fineAfter]
    rw [hfa]
  exact ⟨hp.1, hp.2.2.2.2.2.1 _ _ hpress,
    (hp.2.2.2.2.2.2 _ _ hhum).1, (hp.2.2.2.2.2.2 _ _ hhum).2⟩

/-- C9: `temperature` is idempotent: a second call with the identical raw
sample returns the identical value and leaves `t_fine` identical. -/
theorem C9_temperature_idempotent (s : BMP280State) (raw : ℚ) :
    (temperature (temperature s raw).2 raw).1 = (temperature s raw).1 ∧
    (temperature (temperature s raw).2 raw).2.t_fine =
      (temperature s raw).2.t_fine :=
  ⟨rfl, rfl⟩

/-- C10: when `pressure` takes the degenerate branch and returns `0.0`, and
the refresh condition held (flag true or `t_fine` unset), the returned state
already carries the freshly overwritten fine temperature. -/
theorem C10_pressure_degenerate_refresh (s : BMP280State) (rT rP : ℚ)
    (b : Bool) (hg : s.t_fine = none ∨ b = true)
    (hdeg : pressureVar1Final s.calib (specFine s.calib rT) = 0) :
    pressure s rT rP b =
      some (0, { s with t_fine := some (specFine s.calib rT) }) := by
  have hfa : fineAfter s.t_fine s.calib rT b = specFine s.calib rT := by
    rcases hg with hg | hg <;> simp [fineAfter, hg]
  rw [pressure_eq, hfa, if_pos hdeg]

/-- C10 witness: the degenerate branch with overwritten state at the
all-zero calibration (`dig_P1 = 0`). -/
theorem C10_pressure_degenerate_refresh_witness :
    pressure ⟨zeroCalib, none⟩ 0 0 true =
      some (0, { calib := zeroCalib, t_fine := some (specFine zeroCalib 0) }) :=
  C10_pressure_degenerate_refresh ⟨zeroCalib, none⟩ 0 0 true (Or.inr rfl)
    (by simp [pressureVar1Final, zeroCalib])

/-! Claims C4, C5, C7: calibration byte decoding. -/

/-- Decoding a little-endian 16-bit word as unsigned recovers any value in
`[0, 65536)` from its byte encoding. -/
theorem decode_unsigned (v : ℤ) (h0 : 0 ≤ v) (h1 : v < 65536) :
    c_ushort (((((v % 65536).toNat / 256) <<< 8) +
      ((v % 65536).toNat % 256) : ℕ) : ℤ) = v := by
  simp only [c_ushort, Nat.shiftLeft_eq]
  have h28 : (2 : ℕ) ^ 8 = 256 := by norm_num
  rw [h28]
  omega

/-- Decoding a little-endian 16-bit word as signed two's-complement recovers
any value in `[-32768, 32768)` from its byte encoding. -/
theorem decode_signed (v : ℤ) (h0 : -32768 ≤ v) (h1 : v < 32768) :
    c_short (((((v % 65536).toNat / 256) <<< 8) +
      ((v % 65536).toNat % 256) : ℕ) : ℤ) = v := by
  simp only [c_short, Nat.shiftLeft_eq]
  have h28 : (2 : ℕ) ^ 8 = 256 := by norm_num
  rw [h28]
  split_ifs <;> omega

/-- C4 counterexample: the claim reads all eleven words after `T1` as signed,
but the code decodes `P1` with `c_ushort` (unsigned).  Encoding the
coefficient set with `P1 = -32768` and decoding yields `dig_P1 = 32768`,
not the original `-32768`, so the claimed round-trip fails. -/
theorem C4_counterexample :
    (calibrate (encodeCalib24 0 0 0 (-32768) 0 0 0 0 0 0 0 0)).map
        BMP280Calib.dig_P1 = some 32768 ∧
    ((32768 : ℚ) ≠ ((-32768 : ℤ) : ℚ)) := by
  constructor
  · norm_num [encodeCalib24, bytes16, calibrate, c_ushort, c_short,
      Nat.shiftLeft_eq]
  · norm_num

/-- C4 (amended): the load operation decodes twelve little-endian 16-bit
words, the first (`T1`) and fourth (`P1`) as unsigned and the other ten
(`T2`, `T3`, `P2..P9`) as signed two's-complement; round-tripping any
coefficient set within those ranges through the byte encoding and back
yields the original values. -/
theorem C4_calibration_roundtrip
    (t1 t2 t3 p1 p2 p3 p4 p5 p6 p7 p8 p9 : ℤ)
    (ht1 : 0 ≤ t1 ∧ t1 < 65536)
    (ht2 : -32768 ≤ t2 ∧ t2 < 32768)
    (ht3 : -32768 ≤ t3 ∧ t3 < 32768)
    (hp1 : 0 ≤ p1 ∧ p1 < 65536)
    (hp2 : -32768 ≤ p2 ∧ p2 < 32768)
    (hp3 : -32768 ≤ p3 ∧ p3 < 32768)
    (hp4 : -32768 ≤ p4 ∧ p4 < 32768)
    (hp5 : -32768 ≤ p5 ∧ p5 < 32768)
    (hp6 : -32768 ≤ p6 ∧ p6 < 32768)
    (hp7 : -32768 ≤ p7 ∧ p7 < 32768)
    (hp8 : -32768 ≤ p8 ∧ p8 < 32768)
    (hp9 : -32768 ≤ p9 ∧ p9 < 32768) :
    calibrate (encodeCalib24 t1 t2 t3 p1 p2 p3 p4 p5 p6 p7 p8 p9) =
      some { dig_T1 := (t1 : ℚ), dig_T2 := (t2 : ℚ), dig_T3 := (t3 : ℚ)
             dig_P1 := (p1 : ℚ), dig_P2 := (p2 : ℚ), dig_P3 := (p3 : ℚ)
             dig_P4 := (p4 : ℚ), dig_P5 := (p5 : ℚ), dig_P6 := (p6 : ℚ)
             dig_P7 := (p7 : ℚ), dig_P8 := (p8 : ℚ), dig_P9 := (p9 : ℚ) } := by
  simp only [encodeCalib24, bytes16, List.cons_append, List.nil_append,
    calibrate]
  rw [decode_unsigned t1 ht1.1 ht1.2, decode_signed t2 ht2.1 ht2.2,
    decode_signed t3 ht3.1 ht3.2, decode_unsigned p1 hp1.1 hp1.2,
    decode_signed p2 hp2.1 hp2.2, decode_signed p3 hp3.1 hp3.2,
    decode_signed p4 hp4.1 hp4.2, decode_signed p5 hp5.1 hp5.2,
    decode_signed p6 hp6.1 hp6.2, decode_signed p7 hp7.1 hp7.2,
    decode_signed p8 hp8.1 hp8.2, decode_signed p9 hp9.1 hp9.2]

/-- C4 witness: the round-trip at the datasheet coefficient set. -/
theorem C4_calibration_roundtrip_witness :
    calibrate (encodeCalib24 27504 26435 (-1000) 36097 (-10574) 3024
      2855 140 (-7) 15500 (-14600) 6000) =
      some { dig_T1 := 27504, dig_T2 := 26435, dig_T3 := -1000
             dig_P1 := 36097, dig_P2 := -10574, dig_P3 := 3024
             dig_P4 := 2855, dig_P5 := 140, dig_P6 := -7
             dig_P7 := 15500, dig_P8 := -14600, dig_P9 := 6000 } := by
  have h := C4_calibration_roundtrip 27504 26435 (-1000) 36097 (-10574) 3024
    2855 140 (-7) 15500 (-14600) 6000 (by decide) (by decide) (by decide)
    (by decide) (by decide) (by decide) (by decide) (by decide) (by decide)
    (by decide) (by decide) (by decide)
  exact_mod_cast h

/-- A 24-byte all-zero calibration block. -/
def zeroBlock24 : List ℕ :=
  [0, 0, 0, 0, 0, 0, 0, 0, 0, 0, 0, 0, 0, 0, 0, 0, 0, 0, 0, 0, 0, 0, 0, 0]

/-- `c_short` of a natural number below `32768` is that number (no sign
extension happens for 12-bit patterns). -/
theorem c_short_of_lt (v : ℕ) (hv : v < 32768) : c_short (v : ℤ) = (v : ℤ) := by
  simp only [c_short]
  split_ifs <;> omega

/-- C5 counterexample: the claim says assembled 12-bit patterns in
`2048..4095` decode to negative values, but with `dataHX[3] = 0x80`
(assembled pattern `0x800 = 2048`) the code's `c_short` of a 12-bit value
yields `dig_H4 = 2048`, which is not negative. -/
theorem C5_counterexample :
    (calibrateBME zeroBlock24 [0] [0, 0, 0, 128, 0, 0, 0]).map
        (fun p => p.2.dig_H4) = some 2048 ∧
    ¬ ((2048 : ℚ) < 0) := by
  constructor
  · norm_num [calibrateBME, calibrate, zeroBlock24, c_short, c_ushort,
      c_ubyte, c_byte, Nat.shiftLeft_eq]
  · norm_num

/-- C5 (amended): `H4` is built from one full byte shifted left 4 plus the
low nibble of the next byte, and `H5` from the byte after next shifted left
4 plus the high nibble of the shared byte, but both are interpreted through
`c_short` as signed 16-bit of a value that fits in 12 bits: for byte-range
inputs the decoded values always lie in `[0, 4095]` and are never
negative. -/
theorem C5_h4_h5_decode (data dataH1 dataHX : List ℕ)
    (h0 x0 x1 x2 x3 x4 x5 x6 : ℕ) (restH1 restHX : List ℕ)
    (c : BMP280Calib) (hcal : BME280HumCalib)
    (hH1 : dataH1 = h0 :: restH1)
    (hHX : dataHX = x0 :: x1 :: x2 :: x3 :: x4 :: x5 :: x6 :: restHX)
    (hx3 : x3 ≤ 255) (hx5 : x5 ≤ 255)
    (hdec : calibrateBME data dataH1 dataHX = some (c, hcal)) :
    hcal.dig_H4 = (((x3 <<< 4) + (x4 &&& 0xf) : ℕ) : ℚ) ∧
    0 ≤ hcal.dig_H4 ∧ hcal.dig_H4 ≤ 4095 ∧
    hcal.dig_H5 = (((x5 <<< 4) + ((x4 &&& 0xf0) >>> 4) : ℕ) : ℚ) ∧
    0 ≤ hcal.dig_H5 ∧ hcal.dig_H5 ≤ 4095 := by
  subst hH1
  subst hHX
  have hb4 : (x3 <<< 4) + (x4 &&& 0xf) ≤ 4095 := by
    have h1 : x4 &&& 0xf ≤ 0xf := Nat.and_le_right
    have h2 : x3 <<< 4 ≤ 4080 := by
      rw [Nat.shiftLeft_eq]
      norm_num
      omega
    omega
  have hb5 : (x5 <<< 4) + ((x4 &&& 0xf0) >>> 4) ≤ 4095 := by
    have h1 : (x4 &&& 0xf0) >>> 4 ≤ 0xf := by
      have := Nat.and_le_right (n := x4) (m := 0xf0)
      rw [Nat.shiftRight_eq_div_pow]
      omega
    have h2 : x5 <<< 4 ≤ 4080 := by
      rw [Nat.shiftLeft_eq]
      norm_num
      omega
    omega
  rcases hbase : calibrate data with _ | base
  · rw [calibrateBME, hbase] at hdec
    cases hdec
  · rw [calibrateBME, hbase] at hdec
    simp only [Option.some.injEq, Prod.mk.injEq] at hdec
    have e4 : c_short (((x3 <<< 4) + (x4 &&& 0xf) : ℕ) : ℤ) =
        (((x3 <<< 4) + (x4 &&& 0xf) : ℕ) : ℤ) :=
      c_short_of_lt _ (by omega)
    have e5 : c_short (((x5 <<< 4) + ((x4 &&& 0xf0) >>> 4) : ℕ) : ℤ) =
        (((x5 <<< 4) + ((x4 &&& 0xf0) >>> 4) : ℕ) : ℤ) :=
      c_short_of_lt _ (by omega)
    have h4eq : hcal.dig_H4 =
        ((c_short (((x3 <<< 4) + (x4 &&& 0xf) : ℕ) : ℤ) : ℤ) : ℚ) := by
      rw [← hdec.2]
    have h5eq : hcal.dig_H5 =
        ((c_short (((x5 <<< 4) + ((x4 &&& 0xf0) >>> 4) : ℕ) : ℤ) : ℤ) : ℚ) := by
      rw [← hdec.2]
    rw [h4eq, h5eq, e4, e5]
    refine ⟨?_, ?_, by exact_mod_cast hb4, ?_, ?_, by exact_mod_cast hb5⟩
    · push_cast
      ring
    · exact Int.cast_nonneg.mpr (Int.natCast_nonneg _)
    · push_cast
      ring
    · exact Int.cast_nonneg.mpr (Int.natCast_nonneg _)

/-- C5 witness: the decode facts at an all-zero humidity block. -/
theorem C5_h4_h5_decode_witness :
    zeroHumCalib.dig_H4 = (((0 <<< 4) + (0 &&& 0xf) : ℕ) : ℚ) ∧
    0 ≤ zeroHumCalib.dig_H4 ∧ zeroHumCalib.dig_H4 ≤ 4095 ∧
    zeroHumCalib.dig_H5 = (((0 <<< 4) + ((0 &&& 0xf0) >>> 4) : ℕ) : ℚ) ∧
    0 ≤ zeroHumCalib.dig_H5 ∧ zeroHumCalib.dig_H5 ≤ 4095 :=
  C5_h4_h5_decode zeroBlock24 [0] [0, 0, 0, 0, 0, 0, 0] 0 0 0 0 0 0 0 0 [] []
    zeroCalib zeroHumCalib rfl rfl (by norm_num) (by norm_num)
    (by norm_num [calibrateBME, calibrate, zeroBlock24, zeroCalib,
      zeroHumCalib, c_short, c_ushort, c_ubyte, c_byte])

/-- A 25-byte all-zero block (one byte too many). -/
def zeroBlock25 : List ℕ :=
  [0, 0, 0, 0, 0, 0, 0, 0, 0, 0, 0, 0, 0, 0, 0, 0, 0, 0, 0, 0, 0, 0, 0, 0, 0]

/-- C7 counterexample: the code has no length check and no `CalibrationError`
at all: a 25-byte block (byte count not matching exactly) is decoded
successfully rather than failing. -/
theorem C7_counterexample :
    (calibrate zeroBlock25).isSome = true ∧ zeroBlock25.length ≠ 24 := by
  constructor
  · rfl
  · norm_num [zeroBlock25]

/-- C7 (amended): the code defines no `CalibrationError` and performs no
length check.  The decode succeeds exactly when the essential bytes are
present (at least 24, and for the humidity-capable variant at least 1 + 7
humidity bytes); a shorter block fails with an index error (modelled as
`none`, never a populated store), while a longer block is accepted with the
extra bytes ignored. -/
theorem C7_calibrate_length (data dataH1 dataHX : List ℕ) :
    ((calibrate data).isSome = true ↔ 24 ≤ data.length) ∧
    ((calibrateBME data dataH1 dataHX).isSome = true ↔
      24 ≤ data.length ∧ 1 ≤ dataH1.length ∧ 7 ≤ dataHX.length) := by
  have hbase : ∀ d : List ℕ, (calibrate d).isSome = true ↔ 24 ≤ d.length := by
    intro d
    rcases d with _ | ⟨a0, _ | ⟨a1, _ | ⟨a2, _ | ⟨a3, _ | ⟨a4, _ | ⟨a5, _ |
      ⟨a6, _ | ⟨a7, _ | ⟨a8, _ | ⟨a9, _ | ⟨a10, _ | ⟨a11, _ | ⟨a12, _ |
      ⟨a13, _ | ⟨a14, _ | ⟨a15, _ | ⟨a16, _ | ⟨a17, _ | ⟨a18, _ | ⟨a19, _ |
      ⟨a20, _ | ⟨a21, _ | ⟨a22, _ | ⟨a23,
      rest⟩⟩⟩⟩⟩⟩⟩⟩⟩⟩⟩⟩⟩⟩⟩⟩⟩⟩⟩⟩⟩⟩⟩⟩ <;>
      simp [calibrate]
  refine ⟨hbase data, ?_⟩
  rcases hc : calibrate data with _ | base
  · have hlen : ¬ 24 ≤ data.length := by
      rw [← hbase data, hc]
      simp
    unfold calibrateBME
    rw [hc]
    simp [hlen]
  · have hlen : 24 ≤ data.length := (hbase data).mp (by rw [hc]; rfl)
    unfold calibrateBME
    rw [hc]
    rcases dataH1 with _ | ⟨h0, hr⟩
    · simp [hlen]
    · rcases dataHX with _ | ⟨x0, _ | ⟨x1, _ | ⟨x2, _ | ⟨x3, _ | ⟨x4, _ |
        ⟨x5, _ | ⟨x6, xr⟩⟩⟩⟩⟩⟩⟩ <;>
        simp [hlen]

end HardwarePython
